import Mathlib

/-!
# Verification of the sprite-sheet slicer (`src/client/assets/charecters/main.py`)

The program opens a sprite-sheet image of size `sheet_width × sheet_height`,
computes per-cell dimensions by integer division by the grid counts, and in a
row-major double loop crops each cell and saves it as
`hero_row{row+1}_col{col+1}.png` under an output folder created with
`os.makedirs(..., exist_ok=True)`, collecting the written paths in
`file_names`.

We embed the script shallowly: the geometry is pure arithmetic on `Nat`; the
filesystem is a state (`FS`) with a directory predicate and a partial map from
paths to file contents.  Since every output file is a crop of the single fixed
source sheet, a saved file's content is determined by its crop box, so we use
the crop box as the file content in the model.
-/

/-- A PIL crop rectangle `(left, upper, right, lower)`; `Image.crop` returns an
image of size `(right - left, lower - upper)`. -/
structure CropBox where
  left : Nat
  upper : Nat
  right : Nat
  lower : Nat
deriving DecidableEq, Repr

/-- Line 17 of `main.py`: `sprite_width = sheet_width // cols`. -/
def sprite_width (sheet_width cols : Nat) : Nat := sheet_width / cols

/-- Line 18 of `main.py`: `sprite_height = sheet_height // rows`. -/
def sprite_height (sheet_height rows : Nat) : Nat := sheet_height / rows

/-- The crop rectangle of the cell at 0-based position `(row, col)`:
`left = col * sprite_width`, `upper = row * sprite_height`,
`right = left + sprite_width`, `lower = upper + sprite_height`
(lines 28–31 of `main.py`). -/
def cellBox (sw sh row col : Nat) : CropBox :=
  { left := col * sw, upper := row * sh, right := col * sw + sw,
    lower := row * sh + sh }

/-- Line 35 of `main.py`: the output name for 0-based cell `(row, col)` is
`hero_row` ++ `row+1` ++ `_col` ++ `col+1` ++ `.png` (1-based indices). -/
def file_name (row col : Nat) : String :=
  "hero_row" ++ toString (row + 1) ++ "_col" ++ toString (col + 1) ++ ".png"

/-- Model of `os.path.join(output_folder, file_name)` for the POSIX paths used
here. -/
def joinPath (dir name : String) : String := dir ++ "/" ++ name

/-- One loop iteration's data: the output path and the crop rectangle that is
cropped from the sheet and saved at that path. -/
structure CellOutput where
  path : String
  box : CropBox
deriving DecidableEq, Repr

/-- Row-major grid enumeration: `for row in range(R): for col in range(C)`,
collecting `g row col`. -/
def gridList {α : Type} (R C : Nat) (g : Nat → Nat → α) : List α :=
  (List.range R).flatMap fun r => (List.range C).map (g r)

/-- The sequence of (path, crop box) pairs the double loop of lines 26–38
produces, in iteration order: row-major, column fastest. -/
def sliceCells (W H rows cols : Nat) (outputFolder : String) : List CellOutput :=
  gridList rows cols fun row col =>
    { path := joinPath outputFolder (file_name row col),
      box := cellBox (sprite_width W cols) (sprite_height H rows) row col }

/-- The filesystem state: which directories exist, and the content of each
existing file (`none` = no file at that path). -/
structure FS where
  dirs : String → Bool
  files : String → Option CropBox

/-- The proper parent prefixes of a `/`-separated path, shortest first:
`parentDirs "a/b/c" = ["a", "a/b"]`, `parentDirs "girl_sprites" = []`. -/
def parentDirs (path : String) : List String :=
  let parts := path.splitOn "/"
  (List.range (parts.length - 1)).map fun i =>
    String.intercalate "/" (parts.take (i + 1))

/-- The filesystem after a successful `os.makedirs(path, ...)`: the directory
`path` and all its parents exist, everything else is unchanged. -/
def mkdirsFS (fs : FS) (path : String) : FS :=
  { fs with
    dirs := fun d => fs.dirs d || d == path || (parentDirs path).contains d }

/-- Line 22 of `main.py`, `os.makedirs(path, exist_ok=...)`: creates `path`
and any missing parent directories; raises `FileExistsError` if `path` already
exists and `exist_ok` is false. -/
def makedirs (fs : FS) (path : String) (exist_ok : Bool) : Except String FS :=
  if fs.dirs path && !exist_ok then .error "FileExistsError"
  else .ok (mkdirsFS fs path)

/-- Line 37 of `main.py`, `sprite.save(file_path_out)`: (over)writes the file
at `path` with the given content. -/
def saveFile (fs : FS) (path : String) (content : CropBox) : FS :=
  { fs with files := fun p => if p = path then some content else fs.files p }

/-- The mutable state of the loop of lines 26–38: the filesystem plus the
accumulated `file_names` list. -/
structure RunState where
  fs : FS
  file_names : List String

/-- Result of running the loop: either it ran to completion, or a save failed
(the script has no error handling, so a raised error aborts the loop); the
failed run carries the state at the moment of failure and the path whose save
raised. -/
inductive RunResult where
  | ok (s : RunState)
  | failed (s : RunState) (failedPath : String)

/-- The save loop, with an oracle `ok` telling which paths can be written
(modelling possible I/O failure of `sprite.save`): iterate the cells in order;
on each, save the cropped sprite and append the path to `file_names`; a failed
save aborts immediately with no handler, retry, or rollback. -/
def saveLoop (ok : String → Bool) : List CellOutput → RunState → RunResult
  | [], s => .ok s
  | c :: rest, s =>
    if ok c.path then
      saveLoop ok rest
        { fs := saveFile s.fs c.path c.box, file_names := s.file_names ++ [c.path] }
    else .failed s c.path

/-- The loop when every save succeeds (the normal run). -/
def saveAll : List CellOutput → RunState → RunState
  | [], s => s
  | c :: rest, s =>
    saveAll rest
      { fs := saveFile s.fs c.path c.box, file_names := s.file_names ++ [c.path] }

/-- The whole script on a given initial filesystem, with failure oracle `ok`:
`os.makedirs(output_folder, exist_ok=True)`, then the crop-and-save loop
starting from an empty `file_names` list. -/
def runSlice (W H rows cols : Nat) (outputFolder : String) (ok : String → Bool)
    (fs : FS) : RunResult :=
  match makedirs fs outputFolder true with
  | .error _ => .failed { fs := fs, file_names := [] } outputFolder
  | .ok fs1 => saveLoop ok (sliceCells W H rows cols outputFolder)
      { fs := fs1, file_names := [] }

/-- The whole script when every save succeeds. -/
def runSliceOk (W H rows cols : Nat) (outputFolder : String) (fs : FS) :
    RunState :=
  match makedirs fs outputFolder true with
  | .error _ => { fs := fs, file_names := [] }
  | .ok fs1 => saveAll (sliceCells W H rows cols outputFolder)
      { fs := fs1, file_names := [] }

/-- The value of the script's final expression `file_names[:5]` (line 40):
a notebook-style display of the first five written paths. -/
def firstFive (s : RunState) : List String := s.file_names.take 5

/-- Last content written to path `p` by a cell sequence, if any (the loop
writes front to back, so a later write wins). -/
def lastBox : List CellOutput → String → Option CropBox
  | [], _ => none
  | c :: rest, p =>
    match lastBox rest p with
    | some b => some b
    | none => if p = c.path then some c.box else none

/-- An initial filesystem with no directories and no files, used to
instantiate the run-level theorems on a concrete state. -/
def emptyFS : FS := { dirs := fun _ => false, files := fun _ => none }

/-- A save oracle under which only the first cell of a 1×2 grid under `out`
can be written: the save of every other path raises. -/
def okFirstOnly : String → Bool := fun q => q == joinPath "out" (file_name 0 0)

/-! ## Helper lemmas about the grid enumeration -/

theorem length_gridList {α : Type} (R C : Nat) (g : Nat → Nat → α) :
    (gridList R C g).length = R * C := by
  induction R with
  | zero => simp [gridList]
  | succ n ih =>
    have : gridList (n + 1) C g = gridList n C g ++ (List.range C).map (g n) := by
      simp [gridList, List.range_succ]
    rw [this, List.length_append, ih, List.length_map, List.length_range,
      Nat.succ_mul]

theorem getElem?_gridList {α : Type} {R C r c : Nat} (g : Nat → Nat → α)
    (hr : r < R) (hc : c < C) :
    (gridList R C g)[r * C + c]? = some (g r c) := by
  induction R with
  | zero => omega
  | succ n ih =>
    have hsplit : gridList (n + 1) C g = gridList n C g ++ (List.range C).map (g n) := by
      simp [gridList, List.range_succ]
    rw [hsplit]
    rcases Nat.lt_or_ge r n with h | h
    · rw [List.getElem?_append_left]
      · exact ih h
      · have : r * C + C ≤ n * C := by
          have := Nat.mul_le_mul_right C h
          calc r * C + C = (r + 1) * C := by ring
            _ ≤ n * C := Nat.mul_le_mul_right C h
        rw [length_gridList]
        omega
    · have hrn : r = n := by omega
      subst hrn
      rw [List.getElem?_append_right]
      · rw [length_gridList]
        have : r * C + c - r * C = c := by omega
        rw [this, List.getElem?_map, List.getElem?_range hc]
        rfl
      · rw [length_gridList]
        omega

theorem mem_gridList {α : Type} {R C : Nat} {g : Nat → Nat → α} {x : α} :
    x ∈ gridList R C g ↔ ∃ r c, r < R ∧ c < C ∧ x = g r c := by
  constructor
  · intro hx
    rcases List.mem_flatMap.mp hx with ⟨r, hr, hx⟩
    rcases List.mem_map.mp hx with ⟨c, hc, hx⟩
    exact ⟨r, c, List.mem_range.mp hr, List.mem_range.mp hc, hx.symm⟩
  · rintro ⟨r, c, hr, hc, rfl⟩
    exact List.mem_flatMap.mpr ⟨r, List.mem_range.mpr hr,
      List.mem_map.mpr ⟨c, List.mem_range.mpr hc, rfl⟩⟩

theorem mem_sliceCells {W H rows cols : Nat} {folder : String} {x : CellOutput} :
    x ∈ sliceCells W H rows cols folder ↔
      ∃ r c, r < rows ∧ c < cols ∧
        x = { path := joinPath folder (file_name r c),
              box := cellBox (sprite_width W cols) (sprite_height H rows) r c } := by
  exact mem_gridList

/-! ## Helper lemmas about the save loop -/

theorem saveLoop_allOk (cells : List CellOutput) (s : RunState) :
    saveLoop (fun _ => true) cells s = .ok (saveAll cells s) := by
  induction cells generalizing s with
  | nil => rfl
  | cons c rest ih => simp [saveLoop, saveAll, ih]

theorem saveAll_file_names (cells : List CellOutput) (s : RunState) :
    (saveAll cells s).file_names = s.file_names ++ cells.map (·.path) := by
  induction cells generalizing s with
  | nil => simp [saveAll]
  | cons c rest ih => simp [saveAll, ih]

theorem saveAll_dirs (cells : List CellOutput) (s : RunState) :
    (saveAll cells s).fs.dirs = s.fs.dirs := by
  induction cells generalizing s with
  | nil => rfl
  | cons c rest ih => simp [saveAll, ih, saveFile]

theorem saveAll_files (cells : List CellOutput) (s : RunState) (p : String) :
    (saveAll cells s).fs.files p =
      match lastBox cells p with
      | some b => some b
      | none => s.fs.files p := by
  induction cells generalizing s with
  | nil => simp [saveAll, lastBox]
  | cons c rest ih =>
    rw [saveAll, ih, lastBox]
    cases h : lastBox rest p with
    | some b => simp
    | none => by_cases hp : p = c.path <;> simp [saveFile, hp]

theorem runSliceOk_eq (W H rows cols : Nat) (folder : String) (fs : FS) :
    runSliceOk W H rows cols folder fs =
      saveAll (sliceCells W H rows cols folder)
        { fs := mkdirsFS fs folder, file_names := [] } := by
  simp [runSliceOk, makedirs]

theorem runSlice_eq (W H rows cols : Nat) (folder : String) (ok : String → Bool)
    (fs : FS) :
    runSlice W H rows cols folder ok fs =
      saveLoop ok (sliceCells W H rows cols folder)
        { fs := mkdirsFS fs folder, file_names := [] } := by
  simp [runSlice, makedirs]

theorem saveLoop_failed (ok : String → Bool) (cells : List CellOutput)
    (s s' : RunState) (p : String) (h : saveLoop ok cells s = .failed s' p) :
    ∃ k c, cells[k]? = some c ∧ ok c.path = false ∧ p = c.path ∧
      (∀ d ∈ cells.take k, ok d.path = true) ∧
      s' = saveAll (cells.take k) s := by
  induction cells generalizing s with
  | nil => exact absurd h (by simp [saveLoop])
  | cons c rest ih =>
    rw [saveLoop] at h
    by_cases hc : ok c.path
    · rw [if_pos hc] at h
      rcases ih _ h with ⟨k, d, hk, hd, hp, hpre, hs⟩
      refine ⟨k + 1, d, by simpa using hk, hd, hp, ?_, ?_⟩
      · intro e he
        rw [List.take_succ_cons] at he
        rcases List.mem_cons.mp he with rfl | he
        · exact hc
        · exact hpre e he
      · rw [List.take_succ_cons, saveAll, hs]
    · rw [if_neg hc] at h
      injection h with h1 h2
      exact ⟨0, c, by simp, by simpa using hc, h2.symm, by simp, by
        rw [List.take_zero, saveAll, h1]⟩

/-! ## The claims -/

/-- C1: for every sheet of width `W` and height `H` and every grid of `rows ≥ 1`
rows and `cols ≥ 1` columns, the cell dimensions are the integer divisions
`W / cols` and `H / rows`, and every output image (of size
`right - left × lower - upper` under PIL crop semantics) has exactly that
width and height; remainders are truncated, never redistributed. -/
theorem claim1_cell_dimensions (W H rows cols : Nat) (folder : String)
    (hR : 1 ≤ rows) (hC : 1 ≤ cols) :
    sprite_width W cols = W / cols ∧ sprite_height H rows = H / rows ∧
    ∀ x ∈ sliceCells W H rows cols folder,
      x.box.right - x.box.left = W / cols ∧
      x.box.lower - x.box.upper = H / rows := by
  refine ⟨rfl, rfl, ?_⟩
  intro x hx
  rcases mem_sliceCells.mp hx with ⟨r, c, hr, hc, rfl⟩
  simp [cellBox, sprite_width, sprite_height]

theorem claim1_witness :
    1 ≤ 4 ∧ 1 ≤ 8 ∧
    (sprite_width 800 8 = 800 / 8 ∧ sprite_height 400 4 = 400 / 4 ∧
    ∀ x ∈ sliceCells 800 400 4 8 "girl_sprites",
      x.box.right - x.box.left = 800 / 8 ∧
      x.box.lower - x.box.upper = 400 / 4) :=
  ⟨by decide, by decide,
    claim1_cell_dimensions 800 400 4 8 "girl_sprites" (by decide) (by decide)⟩

/-- C2: for every 0-based grid position `(row, col)` inside the grid, the crop
rectangle of the corresponding cell is exactly
`[col * cellWidth, row * cellHeight, (col+1) * cellWidth, (row+1) * cellHeight)`
with `cellWidth = W / cols`, `cellHeight = H / rows`. -/
theorem claim2_crop_rectangle (W H rows cols row col : Nat) (folder : String)
    (hrow : row < rows) (hcol : col < cols) :
    (sliceCells W H rows cols folder)[row * cols + col]? =
      some { path := joinPath folder (file_name row col),
             box := { left := col * (W / cols), upper := row * (H / rows),
                      right := (col + 1) * (W / cols),
                      lower := (row + 1) * (H / rows) } } := by
  rw [sliceCells, getElem?_gridList _ hrow hcol]
  have hbox : cellBox (sprite_width W cols) (sprite_height H rows) row col =
      { left := col * (W / cols), upper := row * (H / rows),
        right := (col + 1) * (W / cols), lower := (row + 1) * (H / rows) } := by
    simp [cellBox, sprite_width, sprite_height, Nat.succ_mul]
  rw [hbox]

theorem claim2_witness :
    1 < 2 ∧ 2 < 3 ∧
    (sliceCells 100 60 2 3 "out")[1 * 3 + 2]? =
      some { path := joinPath "out" (file_name 1 2),
             box := { left := 2 * (100 / 3), upper := 1 * (60 / 2),
                      right := (2 + 1) * (100 / 3),
                      lower := (1 + 1) * (60 / 2) } } :=
  ⟨by decide, by decide,
    claim2_crop_rectangle 100 60 2 3 1 2 "out" (by decide) (by decide)⟩

/-- C3: for every run with `rows ≥ 1` and `cols ≥ 1` that completes without
error, the number of output files written — the length of the cell sequence
and of the resulting path list — is exactly `rows * cols`. -/
theorem claim3_output_count (W H rows cols : Nat) (folder : String) (fs : FS)
    (hR : 1 ≤ rows) (hC : 1 ≤ cols) :
    (sliceCells W H rows cols folder).length = rows * cols ∧
    (runSliceOk W H rows cols folder fs).file_names.length = rows * cols := by
  constructor
  · exact length_gridList rows cols _
  · rw [runSliceOk_eq, saveAll_file_names]
    simp [sliceCells, length_gridList]

theorem claim3_witness :
    1 ≤ 4 ∧ 1 ≤ 5 ∧
    ((sliceCells 320 240 4 5 "girl_sprites").length = 4 * 5 ∧
     (runSliceOk 320 240 4 5 "girl_sprites" emptyFS).file_names.length = 4 * 5) :=
  ⟨by decide, by decide,
    claim3_output_count 320 240 4 5 "girl_sprites" emptyFS (by decide) (by decide)⟩

/-- C4: file naming is a deterministic function of the grid position alone:
the cell at 0-based `(row, col)` is saved under the output directory as
`hero_row` ++ `row+1` ++ `_col` ++ `col+1` ++ `.png` (1-based indices), both
in the cell sequence and in the written path list of the run. -/
theorem claim4_file_naming (W H rows cols row col : Nat) (folder : String)
    (fs : FS) (hrow : row < rows) (hcol : col < cols) :
    file_name row col =
      "hero_row" ++ toString (row + 1) ++ "_col" ++ toString (col + 1) ++ ".png" ∧
    ((sliceCells W H rows cols folder)[row * cols + col]?).map CellOutput.path =
      some (joinPath folder (file_name row col)) ∧
    (runSliceOk W H rows cols folder fs).file_names[row * cols + col]? =
      some (joinPath folder (file_name row col)) := by
  refine ⟨rfl, ?_, ?_⟩
  · rw [sliceCells, getElem?_gridList _ hrow hcol]
    rfl
  · rw [runSliceOk_eq, saveAll_file_names]
    simp only [List.nil_append]
    rw [sliceCells, List.getElem?_map, getElem?_gridList _ hrow hcol]
    rfl

theorem claim4_witness :
    3 < 4 ∧ 4 < 5 ∧
    (file_name 3 4 =
      "hero_row" ++ toString (3 + 1) ++ "_col" ++ toString (4 + 1) ++ ".png" ∧
    ((sliceCells 320 240 4 5 "girl_sprites")[3 * 5 + 4]?).map CellOutput.path =
      some (joinPath "girl_sprites" (file_name 3 4)) ∧
    (runSliceOk 320 240 4 5 "girl_sprites" emptyFS).file_names[3 * 5 + 4]? =
      some (joinPath "girl_sprites" (file_name 3 4))) :=
  ⟨by decide, by decide,
    claim4_file_naming 320 240 4 5 3 4 "girl_sprites" emptyFS (by decide) (by decide)⟩

/-- C5: the run's result is the full sequence of all `rows * cols` written
paths (the `file_names[:5]` display is only a prefix view of it, not the
result), and the sequence is in row-major order with the column varying
fastest: the path of 0-based cell `(row, col)` sits at index
`row * cols + col`. -/
theorem claim5_row_major (W H rows cols : Nat) (folder : String) (fs : FS) :
    (runSliceOk W H rows cols folder fs).file_names =
      (sliceCells W H rows cols folder).map CellOutput.path ∧
    (runSliceOk W H rows cols folder fs).file_names.length = rows * cols ∧
    firstFive (runSliceOk W H rows cols folder fs) =
      (runSliceOk W H rows cols folder fs).file_names.take 5 ∧
    ∀ row col, row < rows → col < cols →
      (runSliceOk W H rows cols folder fs).file_names[row * cols + col]? =
        some (joinPath folder (file_name row col)) := by
  have hnames : (runSliceOk W H rows cols folder fs).file_names =
      (sliceCells W H rows cols folder).map CellOutput.path := by
    rw [runSliceOk_eq, saveAll_file_names, List.nil_append]
  refine ⟨hnames, ?_, rfl, ?_⟩
  · rw [hnames, List.length_map, sliceCells, length_gridList]
  · intro row col hrow hcol
    rw [hnames, sliceCells, List.getElem?_map, getElem?_gridList _ hrow hcol]
    rfl

theorem claim5_witness :
    (runSliceOk 800 400 4 8 "girl_sprites" emptyFS).file_names =
      (sliceCells 800 400 4 8 "girl_sprites").map CellOutput.path ∧
    (runSliceOk 800 400 4 8 "girl_sprites" emptyFS).file_names.length = 4 * 8 ∧
    firstFive (runSliceOk 800 400 4 8 "girl_sprites" emptyFS) =
      (runSliceOk 800 400 4 8 "girl_sprites" emptyFS).file_names.take 5 ∧
    ∀ row col, row < 4 → col < 8 →
      (runSliceOk 800 400 4 8 "girl_sprites" emptyFS).file_names[row * 8 + col]? =
        some (joinPath "girl_sprites" (file_name row col)) :=
  claim5_row_major 800 400 4 8 "girl_sprites" emptyFS

/-- C6: when `W` is not a multiple of `cols`, every cell's crop rectangle ends
at or before pixel column `cols * (W / cols) = W - W % cols`, so the rightmost
`W % cols` pixel columns of the sheet lie in no output image; symmetrically
the bottom `H % rows` pixel rows lie in no output image. -/
theorem claim6_truncation (W H rows cols : Nat) (folder : String)
    (hR : 1 ≤ rows) (hC : 1 ≤ cols) (hW : W % cols ≠ 0) :
    cols * (W / cols) = W - W % cols ∧
    cols * (W / cols) ≤ W ∧
    (∀ x ∈ sliceCells W H rows cols folder, x.box.right ≤ cols * (W / cols)) ∧
    (∀ px, W - W % cols ≤ px →
      ∀ x ∈ sliceCells W H rows cols folder,
        ¬(x.box.left ≤ px ∧ px < x.box.right)) ∧
    rows * (H / rows) = H - H % rows ∧
    (∀ py, H - H % rows ≤ py →
      ∀ x ∈ sliceCells W H rows cols folder,
        ¬(x.box.upper ≤ py ∧ py < x.box.lower)) := by
  have hdmW : cols * (W / cols) + W % cols = W := Nat.div_add_mod W cols
  have hdmH : rows * (H / rows) + H % rows = H := Nat.div_add_mod H rows
  have hboundW : ∀ x ∈ sliceCells W H rows cols folder,
      x.box.right ≤ cols * (W / cols) := by
    intro x hx
    rcases mem_sliceCells.mp hx with ⟨r, c, hr, hc, rfl⟩
    show c * sprite_width W cols + sprite_width W cols ≤ cols * (W / cols)
    calc c * sprite_width W cols + sprite_width W cols
        = (c + 1) * (W / cols) := by rw [sprite_width]; ring
      _ ≤ cols * (W / cols) := Nat.mul_le_mul_right _ hc
  have hboundH : ∀ x ∈ sliceCells W H rows cols folder,
      x.box.lower ≤ rows * (H / rows) := by
    intro x hx
    rcases mem_sliceCells.mp hx with ⟨r, c, hr, hc, rfl⟩
    show r * sprite_height H rows + sprite_height H rows ≤ rows * (H / rows)
    calc r * sprite_height H rows + sprite_height H rows
        = (r + 1) * (H / rows) := by rw [sprite_height]; ring
      _ ≤ rows * (H / rows) := Nat.mul_le_mul_right _ hr
  refine ⟨by omega, by omega, hboundW, ?_, by omega, ?_⟩
  · rintro px hpx x hx ⟨h1, h2⟩
    have h3 := hboundW x hx
    omega
  · rintro py hpy x hx ⟨h1, h2⟩
    have h3 := hboundH x hx
    omega

theorem claim6_witness :
    1 ≤ 4 ∧ 1 ≤ 3 ∧ 100 % 3 ≠ 0 ∧
    (3 * (100 / 3) = 100 - 100 % 3 ∧
    3 * (100 / 3) ≤ 100 ∧
    (∀ x ∈ sliceCells 100 50 4 3 "out", x.box.right ≤ 3 * (100 / 3)) ∧
    (∀ px, 100 - 100 % 3 ≤ px →
      ∀ x ∈ sliceCells 100 50 4 3 "out",
        ¬(x.box.left ≤ px ∧ px < x.box.right)) ∧
    4 * (50 / 4) = 50 - 50 % 4 ∧
    (∀ py, 50 - 50 % 4 ≤ py →
      ∀ x ∈ sliceCells 100 50 4 3 "out",
        ¬(x.box.upper ≤ py ∧ py < x.box.lower))) :=
  ⟨by decide, by decide, by decide,
    claim6_truncation 100 50 4 3 "out" (by decide) (by decide) (by decide)⟩

/-- C7: running the operation twice with the same source image, grid
parameters and output directory is idempotent on the filesystem: the second
run overwrites the first run's files, yielding the same directories, the same
file contents at every path (so the same set of files, with no duplicate or
additional files), and the same written-path list. -/
theorem claim7_idempotent (W H rows cols : Nat) (folder : String) (fs : FS) :
    (runSliceOk W H rows cols folder
        (runSliceOk W H rows cols folder fs).fs).file_names =
      (runSliceOk W H rows cols folder fs).file_names ∧
    (runSliceOk W H rows cols folder
        (runSliceOk W H rows cols folder fs).fs).fs.dirs =
      (runSliceOk W H rows cols folder fs).fs.dirs ∧
    ∀ p, (runSliceOk W H rows cols folder
        (runSliceOk W H rows cols folder fs).fs).fs.files p =
      (runSliceOk W H rows cols folder fs).fs.files p := by
  refine ⟨?_, ?_, ?_⟩
  · simp only [runSliceOk_eq]
    rw [saveAll_file_names, saveAll_file_names]
  · simp only [runSliceOk_eq]
    rw [saveAll_dirs, saveAll_dirs]
    funext d
    show (mkdirsFS (saveAll (sliceCells W H rows cols folder)
        { fs := mkdirsFS fs folder, file_names := [] }).fs folder).dirs d =
      (mkdirsFS fs folder).dirs d
    simp only [mkdirsFS]
    simp only [saveAll_dirs]
    cases fs.dirs d <;> cases d == folder <;>
      cases (parentDirs folder).contains d <;> rfl
  · intro p
    simp only [runSliceOk_eq]
    rw [saveAll_files, saveAll_files]
    cases h : lastBox (sliceCells W H rows cols folder) p with
    | some b => simp
    | none =>
      show (mkdirsFS (saveAll (sliceCells W H rows cols folder)
          { fs := mkdirsFS fs folder, file_names := [] }).fs folder).files p =
        (mkdirsFS fs folder).files p
      simp only [mkdirsFS]
      simp only [saveAll_files, h]

/-- C8: `os.makedirs(outputDir, exist_ok=True)` never fails — an
already-existing output directory is not an error and the run proceeds — and
afterwards the output directory and every missing parent path segment exist;
nothing else on the filesystem is touched. -/
theorem claim8_makedirs (fs : FS) (path : String) :
    makedirs fs path true = .ok (mkdirsFS fs path) ∧
    (mkdirsFS fs path).dirs path = true ∧
    (∀ d ∈ parentDirs path, (mkdirsFS fs path).dirs d = true) ∧
    (∀ d, fs.dirs d = true → (mkdirsFS fs path).dirs d = true) ∧
    (mkdirsFS fs path).files = fs.files := by
  refine ⟨?_, ?_, ?_, ?_, rfl⟩
  · simp [makedirs]
  · simp [mkdirsFS]
  · intro d hd
    simp [mkdirsFS, hd]
  · intro d hd
    simp [mkdirsFS, hd]

theorem claim8_witness :
    makedirs emptyFS "girl_sprites" true = .ok (mkdirsFS emptyFS "girl_sprites") ∧
    (mkdirsFS emptyFS "girl_sprites").dirs "girl_sprites" = true ∧
    (∀ d ∈ parentDirs "girl_sprites",
      (mkdirsFS emptyFS "girl_sprites").dirs d = true) ∧
    (∀ d, emptyFS.dirs d = true →
      (mkdirsFS emptyFS "girl_sprites").dirs d = true) ∧
    (mkdirsFS emptyFS "girl_sprites").files = emptyFS.files :=
  claim8_makedirs emptyFS "girl_sprites"

/-- C9: a run that fails does so at the first cell whose save raises: every
cell before it was saved (in order, and those files remain in the state at
failure exactly as written), no cell from the failing one on is written, the
`file_names` accumulated are exactly the paths before the failure, and the
error is not caught or retried — the loop just stops there. -/
theorem claim9_no_rollback (W H rows cols : Nat) (folder : String)
    (ok : String → Bool) (fs : FS) (s' : RunState) (p : String)
    (h : runSlice W H rows cols folder ok fs = .failed s' p) :
    ∃ k c, (sliceCells W H rows cols folder)[k]? = some c ∧
      ok c.path = false ∧ p = c.path ∧
      (∀ d ∈ (sliceCells W H rows cols folder).take k, ok d.path = true) ∧
      s' = saveAll ((sliceCells W H rows cols folder).take k)
        { fs := mkdirsFS fs folder, file_names := [] } := by
  rw [runSlice_eq] at h
  exact saveLoop_failed ok _ _ s' p h

theorem claim9_witness :
    runSlice 8 6 1 2 "out" okFirstOnly emptyFS =
      .failed (saveAll ((sliceCells 8 6 1 2 "out").take 1)
          { fs := mkdirsFS emptyFS "out", file_names := [] })
        (joinPath "out" (file_name 0 1)) ∧
    ∃ k c, (sliceCells 8 6 1 2 "out")[k]? = some c ∧
      okFirstOnly c.path = false ∧ joinPath "out" (file_name 0 1) = c.path ∧
      (∀ d ∈ (sliceCells 8 6 1 2 "out").take k, okFirstOnly d.path = true) ∧
      saveAll ((sliceCells 8 6 1 2 "out").take 1)
          { fs := mkdirsFS emptyFS "out", file_names := [] } =
        saveAll ((sliceCells 8 6 1 2 "out").take k)
          { fs := mkdirsFS emptyFS "out", file_names := [] } :=
  ⟨rfl, claim9_no_rollback 8 6 1 2 "out" okFirstOnly emptyFS _ _ rfl⟩

/-- C10: when the sheet is narrower than the column count (or shorter than the
row count), the cell width (respectively height) computes to 0, every cell's
crop rectangle is degenerate with zero width (respectively height), and the
run still writes all `rows * cols` files — nothing rejects or skips such
cells. -/
theorem claim10_degenerate (W H rows cols : Nat) (folder : String) (fs : FS)
    (hR : 1 ≤ rows) (hC : 1 ≤ cols) :
    (runSliceOk W H rows cols folder fs).file_names.length = rows * cols ∧
    (W < cols → sprite_width W cols = 0 ∧
      ∀ x ∈ sliceCells W H rows cols folder, x.box.right - x.box.left = 0) ∧
    (H < rows → sprite_height H rows = 0 ∧
      ∀ x ∈ sliceCells W H rows cols folder, x.box.lower - x.box.upper = 0) := by
  refine ⟨?_, ?_, ?_⟩
  · rw [runSliceOk_eq, saveAll_file_names]
    simp [sliceCells, length_gridList]
  · intro hW
    have h0 : sprite_width W cols = 0 := Nat.div_eq_of_lt hW
    refine ⟨h0, ?_⟩
    intro x hx
    rcases mem_sliceCells.mp hx with ⟨r, c, hr, hc, rfl⟩
    simp [cellBox, h0]
  · intro hH
    have h0 : sprite_height H rows = 0 := Nat.div_eq_of_lt hH
    refine ⟨(by rw [sprite_height]; exact Nat.div_eq_of_lt hH), ?_⟩
    intro x hx
    rcases mem_sliceCells.mp hx with ⟨r, c, hr, hc, rfl⟩
    simp [cellBox, h0]

theorem claim10_witness :
    1 ≤ 4 ∧ 1 ≤ 5 ∧
    ((runSliceOk 3 2 4 5 "out" emptyFS).file_names.length = 4 * 5 ∧
    (3 < 5 → sprite_width 3 5 = 0 ∧
      ∀ x ∈ sliceCells 3 2 4 5 "out", x.box.right - x.box.left = 0) ∧
    (2 < 4 → sprite_height 2 4 = 0 ∧
      ∀ x ∈ sliceCells 3 2 4 5 "out", x.box.lower - x.box.upper = 0)) :=
  ⟨by decide, by decide,
    claim10_degenerate 3 2 4 5 "out" emptyFS (by decide) (by decide)⟩

theorem claim7_witness :
    (runSliceOk 8 6 1 2 "out"
        (runSliceOk 8 6 1 2 "out" emptyFS).fs).file_names =
      (runSliceOk 8 6 1 2 "out" emptyFS).file_names ∧
    (runSliceOk 8 6 1 2 "out"
        (runSliceOk 8 6 1 2 "out" emptyFS).fs).fs.dirs =
      (runSliceOk 8 6 1 2 "out" emptyFS).fs.dirs ∧
    ∀ p, (runSliceOk 8 6 1 2 "out"
        (runSliceOk 8 6 1 2 "out" emptyFS).fs).fs.files p =
      (runSliceOk 8 6 1 2 "out" emptyFS).fs.files p :=
  claim7_idempotent 8 6 1 2 "out" emptyFS
